import Mathlib

/-!
Verification development for the library-recommendation-system front end.

The embedding covers three layers of the repository:

* the API client in src/services/api.ts (response-envelope normalization and
  HTTP-status error translation),
* the ReadingLists page controller (create / select / remove-book / delete
  flows with their notification side effects), and
* the ConfirmationContext promise bridge.

JavaScript strings that travel on the wire are classified by their JSON
parse result: a string either is the JSON encoding of some value (so a
second decode pass recovers that value) or it is not valid JSON.  JSON
values themselves carry the same classification on their string leaves so
that the nested decode of an envelope body can be expressed.
-/

namespace LibRec

/-- A JSON value as seen by the client after a successful decode.  String
leaves record whether their text is itself valid JSON (strEnc j: the text is
the encoding of j) or not (strPlain s: the raw text s, not valid JSON); this
is exactly the distinction the second decode pass of an envelope body
observes. -/
inductive Json where
  | null : Json
  | boolean (b : Bool) : Json
  | num (n : Int) : Json
  | strPlain (s : String) : Json
  | strEnc (j : Json) : Json
  | arr (elems : List Json) : Json
  | obj (fields : List (String × Json)) : Json

/-- First-match lookup of a key in a JSON object field list. -/
def lookupKV : List (String × Json) → String → Option Json
  | [], _ => none
  | (k, v) :: fs, key => if k = key then some v else lookupKV fs key

/-- An exception escaping an API call: a thrown Error with a message, a
SyntaxError from JSON.parse or response.json() on invalid input, or a
TypeError (property access on null, or an array method on a non-array). -/
inductive ApiErr where
  | msg (s : String) : ApiErr
  | decode : ApiErr
  | typeError : ApiErr
deriving DecidableEq

/-- Property access data.key in JavaScript: a field of an object; a
TypeError on null (null.key throws); undefined (none) on every other
non-object value (property access on primitives does not throw). -/
def Json.getField : Json → String → Except ApiErr (Option Json)
  | .null, _ => .error .typeError
  | .obj fs, key => .ok (lookupKV fs key)
  | _, _ => .ok none

/-- JavaScript truthiness of a JSON value (undefined is handled at use
sites as the none case of getField).  Arrays and objects are always truthy;
a string is truthy when its text is nonempty, and a JSON-encoded text is
never empty. -/
def Json.truthy : Json → Bool
  | .null => false
  | .boolean b => b
  | .num n => decide (n ≠ 0)
  | .strPlain s => decide (s ≠ "")
  | .strEnc _ => true
  | .arr _ => true
  | .obj _ => true

/-- Truthiness of a possibly-undefined value such as data.key: undefined
is falsy. -/
def optTruthy : Option Json → Bool
  | some v => v.truthy
  | none => false

mutual
/-- The serialized text of a JSON value (escaping of special characters is
abstracted away; used only to give string coercion a total meaning). -/
def Json.encode : Json → String
  | .null => "null"
  | .boolean b => cond b "true" "false"
  | .num n => toString n
  | .strPlain s => "\"" ++ s ++ "\""
  | .strEnc j => "\"" ++ Json.encode j ++ "\""
  | .arr xs => "[" ++ encodeElems xs ++ "]"
  | .obj fs => "\x7b" ++ encodeFields fs ++ "\x7d"

/-- Comma-separated encodings of array elements. -/
def encodeElems : List Json → String
  | [] => ""
  | [x] => Json.encode x
  | x :: xs => Json.encode x ++ "," ++ encodeElems xs

/-- Comma-separated encodings of object fields. -/
def encodeFields : List (String × Json) → String
  | [] => ""
  | [(k, v)] => "\"" ++ k ++ "\":" ++ Json.encode v
  | (k, v) :: fs => "\"" ++ k ++ "\":" ++ Json.encode v ++ "," ++ encodeFields fs
end

mutual
/-- JavaScript String() coercion of a JSON value, as used by the Error
constructor when handed a non-string message. -/
def Json.coerceStr : Json → String
  | .null => "null"
  | .boolean b => cond b "true" "false"
  | .num n => toString n
  | .strPlain s => s
  | .strEnc j => Json.encode j
  | .arr xs => coerceElems xs
  | .obj _ => "[object Object]"

/-- Array-to-string coercion: elements joined with commas. -/
def coerceElems : List Json → String
  | [] => ""
  | [x] => Json.coerceStr x
  | x :: xs => Json.coerceStr x ++ "," ++ coerceElems xs
end

/-- The raw text of an HTTP response body, classified by its JSON parse
result: either the encoding of a value j, or a text that is not valid JSON
(the empty text "" is plain ""). -/
inductive BodyStr where
  | plain (s : String) : BodyStr
  | enc (j : Json) : BodyStr

/-- The result of JSON.parse on the body text, none when parsing throws. -/
def BodyStr.parse : BodyStr → Option Json
  | .plain _ => none
  | .enc j => some j

/-- Truthiness of the body text, as tested by if (text) after
response.text(): nonempty; encodings are never empty. -/
def BodyStr.truthy : BodyStr → Bool
  | .plain s => decide (s ≠ "")
  | .enc _ => true

/-- JSON.parse applied to a decoded JSON value v (the second decode pass of
an envelope body, which first coerces v to a string): a string leaf parses
by its classification; numbers and booleans re-parse to themselves; null,
arrays and objects coerce to texts that are not valid JSON.  The null case
is unreachable at call sites, which test truthiness first. -/
def innerParse : Json → Option Json
  | .strPlain _ => none
  | .strEnc j => some j
  | .num n => some (.num n)
  | .boolean b => some (.boolean b)
  | _ => none

/-- An HTTP response as observed by the client: status code and body text. -/
structure Response where
  status : Nat
  body : BodyStr

/-- The fetch Response.ok flag: status in the 2xx range. -/
def Response.ok (r : Response) : Bool :=
  decide (200 ≤ r.status) && decide (r.status < 300)

/-- The human-readable message handleApiError extracts from a caught
exception (error instanceof Error gives error.message). -/
def ApiErr.text : ApiErr → String
  | .msg s => s
  | .decode => "Unexpected token in JSON"
  | .typeError => "TypeError"

/-- The expression errorData.error || fallback: the structured message
verbatim when present and truthy, the fixed fallback when the field is
absent, falsy or errorData is not an object — but when errorData is null
(a decoded null payload) the property access itself throws a TypeError. -/
def errMsg (errorData : Json) (fallback : String) : Except ApiErr String :=
  match errorData.getField "error" with
  | .error e => .error e
  | .ok (some v) => .ok (if v.truthy then v.coerceStr else fallback)
  | .ok none => .ok fallback

/-- The statement throw new Error(m) at a dispatch site, where computing m
itself may have thrown (the TypeError escapes instead of the Error). -/
def throwMsg {α : Type} : Except ApiErr String → Except ApiErr α
  | .error e => .error e
  | .ok s => .error (.msg s)

/-- getBooks from src/services/api.ts: throw the fixed message on non-2xx,
decode the body, unwrap the envelope when data.body is truthy (dropping the
first element of the decoded payload via slice(1)), and otherwise return
the direct payload when it is an array and the empty array when not. -/
def getBooks (r : Response) : Except ApiErr (List Json) :=
  if !r.ok then .error (.msg "Failed to fetch books") else
  match r.body.parse with
  | none => .error .decode
  | some data =>
    match data.getField "body" with
    | .error e => .error e
    | .ok fb =>
      if optTruthy fb then
        match innerParse (fb.getD .null) with
        | none => .error .decode
        | some realData =>
          match realData with
          | .arr xs => .ok xs.tail
          | _ => .error .typeError
      else
        match data with
        | .arr xs => .ok xs
        | _ => .ok []

/-- getBook from src/services/api.ts: 404 resolves to null, other non-2xx
throws the fixed message, and the body is unwrapped from the envelope when
present. -/
def getBook (r : Response) : Except ApiErr (Option Json) :=
  if r.status = 404 then .ok none else
  if !r.ok then .error (.msg "Failed to fetch book") else
  match r.body.parse with
  | none => .error .decode
  | some data =>
    match data.getField "body" with
    | .error e => .error e
    | .ok fb =>
      if optTruthy fb then
        match innerParse (fb.getD .null) with
        | none => .error .decode
        | some b => .ok (some b)
      else .ok (some data)

/-- The guarded parse phase of createBook: response.text() inside a
try/catch, producing parsedData (none models the initial null) and
errorData (initially the empty object).  The envelope guard — parsedData
truthy, of object type, and carrying a body property — short-circuits on a
null outer parse, so a decoded null flows into
errorData (the fallthrough arm keeps p, which may be Json.null); likewise
a null body field (falsy in typeof-string check position) is assigned to
errorData directly.  The later errorData.error access on such a null is
where the program throws a TypeError — modelled at the errMsg call sites.
When the outer parse yields an object with a string body field, that field
is decoded a second time; if that inner decode throws, the catch leaves
errorData empty and parsedData at the outer value. -/
def createBookParse (body : BodyStr) : Option Json × Json :=
  if !body.truthy then (none, .obj []) else
  match body.parse with
  | none => (none, .obj [])
  | some p =>
    match p with
    | .obj fs =>
      match lookupKV fs "body" with
      | some bv =>
        match bv with
        | .strPlain _ => (some p, .obj [])
        | .strEnc inner => (some inner, inner)
        | _ => (some bv, bv)
      | none => (some p, p)
    | _ => (some p, p)

/-- createBook from src/services/api.ts: parse guarded by try/catch, then
status dispatch preferring the structured error message over the fixed
per-status fallback, returning the parsed payload on success. -/
def createBook (r : Response) : Except ApiErr (Option Json) :=
  let parsed := createBookParse r.body
  let errorData := parsed.2
  if r.status = 401 then throwMsg (errMsg errorData "Unauthorized: Please login again") else
  if r.status = 403 then throwMsg (errMsg errorData "Forbidden: Admin access required") else
  if r.status = 400 then throwMsg (errMsg errorData "Invalid request: Missing required fields") else
  if r.status = 409 then throwMsg (errMsg errorData "Book with this id already exists") else
  if !r.ok then throwMsg (errMsg errorData "Failed to create book") else
  .ok parsed.1

/-- getReadingLists from src/services/api.ts: fixed message on non-2xx,
envelope branch returns the inner decode unchecked, direct branch returns
the payload when it is an array and the empty array when not. -/
def getReadingLists (r : Response) : Except ApiErr Json :=
  if !r.ok then .error (.msg "Failed to fetch reading lists") else
  match r.body.parse with
  | none => .error .decode
  | some data =>
    match data.getField "body" with
    | .error e => .error e
    | .ok fb =>
      if optTruthy fb then
        match innerParse (fb.getD .null) with
        | none => .error .decode
        | some inner => .ok inner
      else
        match data with
        | .arr xs => .ok (.arr xs)
        | _ => .ok (.arr [])

/-- createReadingList from src/services/api.ts: fixed message on non-2xx,
then envelope unwrap or direct payload. -/
def createReadingList (r : Response) : Except ApiErr Json :=
  if !r.ok then .error (.msg "Failed to create reading list") else
  match r.body.parse with
  | none => .error .decode
  | some data =>
    match data.getField "body" with
    | .error e => .error e
    | .ok fb =>
      if optTruthy fb then
        match innerParse (fb.getD .null) with
        | none => .error .decode
        | some inner => .ok inner
      else .ok data

/-- A catalog book as materialized in the page state (only the identifier
is consulted by the page logic; the title stands for the remaining
fields). -/
structure Book where
  id : String
  title : String
deriving DecidableEq, Repr

/-- A reading list as held in the page cache. -/
structure RList where
  id : String
  userId : String
  name : String
  description : String
  bookIds : List String
deriving DecidableEq, Repr

/-- The useState fields of the ReadingLists component. -/
structure PageState where
  lists : List RList
  isLoading : Bool
  isModalOpen : Bool
  newListName : String
  newListDescription : String
  selectedList : Option RList
  listBooks : List Book
  isLoadingBooks : Bool
  isBooksModalOpen : Bool
  removingBookId : Option String
  deletingListId : Option String
deriving DecidableEq, Repr

/-- The initial useState values of the component. -/
def initialState : PageState :=
  { lists := [], isLoading := true, isModalOpen := false, newListName := "",
    newListDescription := "", selectedList := none, listBooks := [],
    isLoadingBooks := false, isBooksModalOpen := false,
    removingBookId := none, deletingListId := none }

/-- A user-facing message: a toast success, a toast error (handleApiError),
or a direct blocking alert. -/
inductive Notice where
  | success (m : String) : Notice
  | error (m : String) : Notice
  | alertMsg (m : String) : Notice
deriving DecidableEq, Repr

/-- A primitive effect of handleRemoveBook, in source order: setState
calls, the network request, and notifications. -/
inductive Eff where
  | setRemoving (id : Option String) : Eff
  | request (listId : String) (bookIds : List String) : Eff
  | setSelected (l : Option RList) : Eff
  | setListBooks (bs : List Book) : Eff
  | setLists (ls : List RList) : Eff
  | notifySuccess (m : String) : Eff
  | notifyError (m : String) : Eff
deriving DecidableEq, Repr

/-- How each effect acts on the component state (requests and
notifications do not change it). -/
def applyEff (s : PageState) : Eff → PageState
  | .setRemoving i => { s with removingBookId := i }
  | .request _ _ => s
  | .setSelected l => { s with selectedList := l }
  | .setListBooks bs => { s with listBooks := bs }
  | .setLists ls => { s with lists := ls }
  | .notifySuccess _ => s
  | .notifyError _ => s

/-- The notifications contained in an effect trace. -/
def noticeOf : Eff → Option Notice
  | .notifySuccess m => some (.success m)
  | .notifyError m => some (.error m)
  | _ => none

/-- All notifications of a trace, in order. -/
def notices (effs : List Eff) : List Notice := effs.filterMap noticeOf

/-- The effect trace of handleRemoveBook once a list is selected: mark the
book as being removed, send the filtered identifier set to the server,
then on success adopt the returned list, filter the materialized view and
the cache and notify success; on failure notify the error; finally clear
the in-progress mark. -/
def removeBookEffs (sel : RList) (listBooks0 : List Book) (lists0 : List RList)
    (bookId : String) (net : Except ApiErr RList) : List Eff :=
  let updatedBookIds := sel.bookIds.filter (fun i => i ≠ bookId)
  [.setRemoving (some bookId), .request sel.id updatedBookIds] ++
  (match net with
   | .ok updatedList =>
     [.setSelected (some updatedList),
      .setListBooks (listBooks0.filter (fun b => b.id ≠ bookId)),
      .setLists (lists0.map (fun l => if l.id = sel.id then updatedList else l)),
      .notifySuccess "Book removed from reading list successfully!"]
   | .error e => [.notifyError e.text]) ++
  [.setRemoving none]

/-- handleRemoveBook: an early return when no list is selected, otherwise
the effect trace above folded over the state. -/
def handleRemoveBook (s : PageState) (bookId : String) (net : Except ApiErr RList) :
    PageState × List Eff :=
  match s.selectedList with
  | none => (s, [])
  | some sel =>
    let effs := removeBookEffs sel s.listBooks s.lists bookId net
    (effs.foldl applyEff s, effs)

/-- handleCreateList: a blocking alert and no network call when the
trimmed name is empty; otherwise the created list is appended to the
cache, the modal closed and the inputs cleared on success, and an error
notified on failure. -/
def handleCreateList (s : PageState) (net : Except ApiErr RList) : PageState × List Notice :=
  if s.newListName.trim = "" then (s, [.alertMsg "Please enter a list name"])
  else
    match net with
    | .ok newList =>
      ({ s with lists := s.lists ++ [newList], isModalOpen := false,
                newListName := "", newListDescription := "" },
       [.success "Reading list created successfully!"])
    | .error e => (s, [.error e.text])

/-- Promise.all over getBook calls: resolve every identifier, keeping the
results in order; the batch fails as a whole as soon as one resolution
fails (no partial-success path). -/
def resolveAll (resolve : String → Except ApiErr (Option Book)) :
    List String → Except ApiErr (List (Option Book))
  | [] => .ok []
  | i :: is =>
    match resolve i with
    | .error e => .error e
    | .ok ob =>
      match resolveAll resolve is with
      | .error e => .error e
      | .ok obs => .ok (ob :: obs)

/-- loadListBooks: every identifier is resolved (Promise.all rejects the
whole batch on the first transport failure, so the traversal is
all-or-nothing); null results (books that do not exist) are filtered out
silently; a batch failure notifies one error and leaves the view
untouched. -/
def loadListBooks (s : PageState) (resolve : String → Except ApiErr (Option Book))
    (bookIds : List String) : PageState × List Notice :=
  match resolveAll resolve bookIds with
  | .ok books => ({ s with listBooks := books.filterMap id, isLoadingBooks := false }, [])
  | .error e => ({ s with isLoadingBooks := false }, [.error e.text])

/-- handleListClick: select the list, open the books modal, and load its
books. -/
def handleListClick (s : PageState) (list : RList)
    (resolve : String → Except ApiErr (Option Book)) : PageState × List Notice :=
  loadListBooks { s with selectedList := some list, isBooksModalOpen := true } resolve list.bookIds

/-- The onClose handler of the books modal: close it, clear the selection
and the materialized view. -/
def closeBooksModal (s : PageState) : PageState :=
  { s with isBooksModalOpen := false, selectedList := none, listBooks := [] }

/-- handleDeleteList after the confirmation dialog: a declined
confirmation returns before any network call; on success the list is
dropped from the cache (clearing the selection and view when it was the
selected list); on failure an error is notified and the cache kept. -/
def handleDeleteList (s : PageState) (listId : String) (confirmed : Bool)
    (net : Except ApiErr Unit) : PageState × List Notice :=
  if !confirmed then (s, [])
  else
    match net with
    | .ok _ =>
      let s1 := { s with lists := s.lists.filter (fun l => l.id ≠ listId),
                         deletingListId := none }
      let s2 :=
        if s.selectedList.map RList.id = some listId then
          { s1 with isBooksModalOpen := false, selectedList := none, listBooks := [] }
        else s1
      (s2, [.success "Reading list deleted successfully!"])
    | .error e => ({ s with deletingListId := none }, [.error e.text])

/-- loadLists: replace the cache wholesale on success, notify the error on
failure. -/
def loadLists (s : PageState) (net : Except ApiErr (List RList)) : PageState × List Notice :=
  match net with
  | .ok data => ({ s with lists := data, isLoading := false }, [])
  | .error e => ({ s with isLoading := false }, [.error e.text])

/-- Opening the create-list modal. -/
def openCreateModal (s : PageState) : PageState := { s with isModalOpen := true }

/-- Closing the create-list modal. -/
def closeCreateModal (s : PageState) : PageState := { s with isModalOpen := false }

/-- Editing the new-list name input. -/
def setNewListName (s : PageState) (v : String) : PageState := { s with newListName := v }

/-- Editing the new-list description input. -/
def setNewListDescription (s : PageState) (v : String) : PageState :=
  { s with newListDescription := v }

/-- A book-resolution oracle is well-formed when a successful resolution
of an identifier returns a book carrying that identifier (the backend
resolves /books/:id to the book with that id). -/
def resolveWF (resolve : String → Except ApiErr (Option Book)) : Prop :=
  ∀ id b, resolve id = .ok (some b) → b.id = id

/-- One user-visible transition of the ReadingLists page under serialized
execution: every handler, including the awaited book load of a selection,
runs to completion before the next user action, so no stale in-flight
load can land later (the overlapping-load race the implementation does
not guard against is modelled separately by AsyncStep below).  Selecting
a list requires the books modal to be closed (its full-viewport backdrop
blocks the list cards while open).  A successful remove carries the
contract that the server applied the requested full replacement of the
identifier set; a successful resolution oracle is well-formed. -/
inductive Step : PageState → PageState → Prop where
  | load (s : PageState) (net : Except ApiErr (List RList)) :
      Step s (loadLists s net).1
  | createList (s : PageState) (net : Except ApiErr RList) :
      Step s (handleCreateList s net).1
  | listClick (s : PageState) (list : RList)
      (resolve : String → Except ApiErr (Option Book)) :
      s.isBooksModalOpen = false → resolveWF resolve →
      Step s (handleListClick s list resolve).1
  | removeBookErr (s : PageState) (bookId : String) (e : ApiErr) :
      Step s (handleRemoveBook s bookId (.error e)).1
  | removeBookOk (s : PageState) (bookId : String) (u : RList) :
      (∀ sel, s.selectedList = some sel →
        u.bookIds = sel.bookIds.filter (fun i => i ≠ bookId)) →
      Step s (handleRemoveBook s bookId (.ok u)).1
  | deleteList (s : PageState) (listId : String) (confirmed : Bool)
      (net : Except ApiErr Unit) :
      Step s (handleDeleteList s listId confirmed net).1
  | closeBooks (s : PageState) : Step s (closeBooksModal s)
  | openCreate (s : PageState) : Step s (openCreateModal s)
  | closeCreate (s : PageState) : Step s (closeCreateModal s)
  | editName (s : PageState) (v : String) : Step s (setNewListName s v)
  | editDescription (s : PageState) (v : String) : Step s (setNewListDescription s v)

/-- States reachable from the initial component state. -/
inductive Reachable : PageState → Prop where
  | init : Reachable initialState
  | step {s t : PageState} : Reachable s → Step s t → Reachable t

/-- Effects that are network requests. -/
def isRequest : Eff → Bool
  | .request _ _ => true
  | _ => false

/-- Effects that replace the materialized book view. -/
def isSetListBooks : Eff → Bool
  | .setListBooks _ => true
  | _ => false

/-- The prefix of a trace strictly before its first network request. -/
def effsBeforeRequest (effs : List Eff) : List Eff :=
  effs.takeWhile (fun e => !isRequest e)

/-- The materialized view at the moment the request is issued: the state
reached by the effects preceding the request. -/
def viewAtRequest (s : PageState) (effs : List Eff) : List Book :=
  ((effsBeforeRequest effs).foldl applyEff s).listBooks

/-! ## Confirmation flow

The ConfirmationProvider holds a single dialog slot.  confirm(options)
stores a fresh resolver in the slot (replacing any pending one, whose
promise is then never resolved); handleConfirm resolves the pending
request with true and clears the slot; handleCancel resolves it with
false.  Requests are named by identifiers and the resolutions performed so
far are recorded in order. -/

/-- The provider state: the pending request in the dialog slot, and the
record of promise resolutions performed so far. -/
structure CState where
  pending : Option Nat
  resolutions : List (Nat × Bool)
deriving DecidableEq, Repr

/-- A user-level event of the confirmation flow: a confirm(options) call
for a given request, or the accept / cancel action of the dialog. -/
inductive CEvent where
  | confirmReq (reqId : Nat) : CEvent
  | accept : CEvent
  | cancel : CEvent
deriving DecidableEq, Repr

/-- One step of the provider: confirm replaces the slot; handleConfirm and
handleCancel resolve the pending request (a no-op when the slot is empty)
and clear the slot. -/
def confirmStep (st : CState) : CEvent → CState
  | .confirmReq i => { st with pending := some i }
  | .accept =>
    match st.pending with
    | some i => ⟨none, st.resolutions ++ [(i, true)]⟩
    | none => st
  | .cancel =>
    match st.pending with
    | some i => ⟨none, st.resolutions ++ [(i, false)]⟩
    | none => st

/-- Running a sequence of events from the empty provider state. -/
def confirmRun (evs : List CEvent) : CState :=
  evs.foldl confirmStep ⟨none, []⟩

/-- The identifiers of the confirmation requests in an event sequence. -/
def requestIds : List CEvent → List Nat
  | [] => []
  | .confirmReq i :: evs => i :: requestIds evs
  | _ :: evs => requestIds evs

/-- The resolution values delivered to a given request. -/
def resolutionsFor (st : CState) (i : Nat) : List Bool :=
  (st.resolutions.filter (fun p => p.1 = i)).map Prod.snd

/-! ## Theorems -/

/-- A dispatch-site throw never surfaces as a JSON decode exception: the
property access errorData.error can throw only a TypeError. -/
theorem throwMsg_errMsg_ne_decode {α : Type} (d : Json) (fb : String) :
    (throwMsg (errMsg d fb) : Except ApiErr α) ≠ .error .decode := by
  unfold throwMsg errMsg
  cases d
  case obj fs => cases hl : lookupKV fs "error" <;> simp [Json.getField, hl]
  all_goals simp [Json.getField]

/-- A non-2xx status makes Response.ok false. -/
theorem respOk_false (st : Nat) (body : BodyStr) (h : ¬(200 ≤ st ∧ st < 300)) :
    Response.ok ⟨st, body⟩ = false := by
  simp only [Response.ok, Bool.and_eq_false_iff, decide_eq_false_iff_not]
  omega

/-- A 2xx status makes Response.ok true. -/
theorem respOk_true (st : Nat) (body : BodyStr) (h1 : 200 ≤ st) (h2 : st < 300) :
    Response.ok ⟨st, body⟩ = true := by
  simp [Response.ok, h1, h2]

/-- The concrete 200 envelope response refuting C1: the body decodes to
the envelope whose body string encodes the two-element payload. -/
def c1resp : Response :=
  ⟨200, .enc (.obj [("statusCode", .num 200),
                    ("body", .strEnc (.arr [.num 1, .num 2]))])⟩

/-- C1 counterexample: on a successful envelope response whose decoded
payload is the two-element array, getBooks returns only the second
element — slice(1) drops the first — so the returned list is not the full
decoded payload. -/
theorem getBooks_envelope_drops_first :
    getBooks c1resp = .ok [Json.num 2] ∧
    (Except.ok [Json.num 2] : Except ApiErr (List Json)) ≠ .ok [Json.num 1, Json.num 2] := by
  refine ⟨rfl, fun h => ?_⟩
  have hlen := congrArg (fun x : Except ApiErr (List Json) =>
    match x with
    | .ok l => l.length
    | .error _ => 0) h
  simp at hlen

/-- C1 amended: for every 2xx response, a direct JSON array payload is
returned in full, while an envelope whose body string encodes an array
yields that array minus its first element (the slice(1) in getBooks). -/
theorem getBooks_normalization (st : Nat) (h : 200 ≤ st ∧ st < 300) (xs : List Json)
    (fields : List (String × Json)) :
    getBooks ⟨st, .enc (.arr xs)⟩ = .ok xs ∧
    (lookupKV fields "body" = some (.strEnc (.arr xs)) →
      getBooks ⟨st, .enc (.obj fields)⟩ = .ok xs.tail) := by
  constructor
  · simp [getBooks, respOk_true st _ h.1 h.2, BodyStr.parse, Json.getField, optTruthy]
  · intro hf
    simp [getBooks, respOk_true st _ h.1 h.2, BodyStr.parse, Json.getField, optTruthy,
      hf, Json.truthy, innerParse]

/-- Witness for the amended C1 at a concrete 200 response: the direct
array comes back whole, the envelope payload loses its head. -/
theorem getBooks_normalization_witness :
    getBooks ⟨200, .enc (.arr [Json.num 7])⟩ = .ok [Json.num 7] ∧
    getBooks ⟨200, .enc (.obj [("body", .strEnc (.arr [Json.num 7]))])⟩ = .ok [] := by
  have h := getBooks_normalization 200 (by omega) [Json.num 7]
    [("body", .strEnc (.arr [Json.num 7]))]
  exact ⟨h.1, h.2 rfl⟩

/-- C5 counterexample: a 200 response with an empty body makes getBooks
throw the JSON decode exception rather than return normally or throw the
fixed fallback message. -/
theorem getBooks_crashes_on_empty_body :
    getBooks ⟨200, .plain ""⟩ = .error .decode ∧
    ApiErr.decode ≠ ApiErr.msg "Failed to fetch books" := by
  exact ⟨rfl, by decide⟩

/-- C5 amended: createBook never escapes with a JSON decode exception on
any response (its parsing is guarded by try/catch) — though a decoded null
error payload makes its status-dispatch property access errorData.error
throw a TypeError; getBooks, getReadingLists and createReadingList throw
their fixed fallback before any parsing on non-2xx responses, but on 2xx
responses with an empty or non-JSON body they crash with the decode
exception. -/
theorem api_decode_safety :
    (∀ r : Response, createBook r ≠ .error .decode) ∧
    (∀ st body, ¬(200 ≤ st ∧ st < 300) →
      getBooks ⟨st, body⟩ = .error (.msg "Failed to fetch books") ∧
      getReadingLists ⟨st, body⟩ = .error (.msg "Failed to fetch reading lists") ∧
      createReadingList ⟨st, body⟩ = .error (.msg "Failed to create reading list")) ∧
    (∀ st s, 200 ≤ st → st < 300 →
      getBooks ⟨st, .plain s⟩ = .error .decode ∧
      getReadingLists ⟨st, .plain s⟩ = .error .decode ∧
      createReadingList ⟨st, .plain s⟩ = .error .decode) ∧
    createBook ⟨401, .enc .null⟩ = .error .typeError := by
  refine ⟨fun r => ?_, fun st body h => ?_, fun st s h1 h2 => ?_, rfl⟩
  · unfold createBook
    split_ifs <;> first
      | exact throwMsg_errMsg_ne_decode _ _
      | simp
  · have hok := respOk_false st body h
    exact ⟨by simp [getBooks, hok], by simp [getReadingLists, hok],
      by simp [createReadingList, hok]⟩
  · have hok := respOk_true st (.plain s) h1 h2
    exact ⟨by simp [getBooks, hok, BodyStr.parse],
      by simp [getReadingLists, hok, BodyStr.parse],
      by simp [createReadingList, hok, BodyStr.parse]⟩

/-- Witness for the amended C5: createBook on a 500 response with a
non-JSON body throws the fixed message (no decode crash), and the three
unguarded calls degrade to their fixed messages on a 500. -/
theorem api_decode_safety_witness :
    createBook ⟨500, .plain "oops"⟩ ≠ .error .decode ∧
    getBooks ⟨500, .plain "oops"⟩ = .error (.msg "Failed to fetch books") ∧
    getBooks ⟨204, .plain ""⟩ = .error .decode := by
  exact ⟨api_decode_safety.1 ⟨500, .plain "oops"⟩,
    (api_decode_safety.2.1 500 (.plain "oops") (by omega)).1,
    (api_decode_safety.2.2.1 204 "" (by omega) (by omega)).1⟩

/-- A selected reading list used by the concrete page scenarios. -/
def demoSel : RList := ⟨"l1", "1", "My List", "", ["b1", "b2"]⟩

/-- The server reply adopting the removal of b1 from the demo list. -/
def demoUpdated : RList := ⟨"l1", "1", "My List", "", ["b2"]⟩

/-- The two materialized books of the demo list. -/
def demoBook1 : Book := ⟨"b1", "A"⟩

/-- The second materialized book of the demo list. -/
def demoBook2 : Book := ⟨"b2", "B"⟩

/-- A page state with the demo list selected and its books materialized. -/
def demoState : PageState :=
  { initialState with selectedList := some demoSel,
                      listBooks := [demoBook1, demoBook2],
                      isBooksModalOpen := true, lists := [demoSel] }

/-- C2: when the updateReadingList call fails, handleRemoveBook leaves the
materialized view, the selected list and the cached list collection
exactly as they were, and emits exactly one error notification. -/
theorem removeBook_rollback (s : PageState) (bookId : String) (e : ApiErr) (sel : RList)
    (h : s.selectedList = some sel) :
    (handleRemoveBook s bookId (.error e)).1.listBooks = s.listBooks ∧
    (handleRemoveBook s bookId (.error e)).1.selectedList = s.selectedList ∧
    (handleRemoveBook s bookId (.error e)).1.lists = s.lists ∧
    notices (handleRemoveBook s bookId (.error e)).2 = [.error e.text] := by
  simp [handleRemoveBook, h, removeBookEffs, applyEff, notices, noticeOf]

/-- Witness for C2 at the demo state with a failing network call. -/
theorem removeBook_rollback_witness :
    (handleRemoveBook demoState "b1" (.error (.msg "x"))).1.listBooks = demoState.listBooks ∧
    (handleRemoveBook demoState "b1" (.error (.msg "x"))).1.selectedList = demoState.selectedList ∧
    (handleRemoveBook demoState "b1" (.error (.msg "x"))).1.lists = demoState.lists ∧
    notices (handleRemoveBook demoState "b1" (.error (.msg "x"))).2 = [.error "x"] :=
  removeBook_rollback demoState "b1" (.msg "x") demoSel rfl

/-- C3 counterexample: in the demo state, at the moment the update request
is issued the materialized view still contains the book being removed, so
the removal is not applied optimistically before the request. -/
theorem removeBook_not_optimistic :
    demoBook1.id = "b1" ∧
    demoBook1 ∈ viewAtRequest demoState
      ((handleRemoveBook demoState "b1" (.ok demoUpdated)).2) := by
  decide

/-- C3 amended: the view update follows the server confirmation: the only
effect preceding the update request is the in-progress mark, a failed call
never updates the view, and on success the view update appears after the
request in the effect trace. -/
theorem removeBook_update_after_request (sel : RList) (lb : List Book)
    (ls : List RList) (bookId : String) :
    (∀ net, effsBeforeRequest (removeBookEffs sel lb ls bookId net) =
      [.setRemoving (some bookId)]) ∧
    (∀ e, (removeBookEffs sel lb ls bookId (.error e)).all
      (fun x => !isSetListBooks x) = true) ∧
    (∀ u, removeBookEffs sel lb ls bookId (.ok u) =
      [.setRemoving (some bookId),
       .request sel.id (sel.bookIds.filter (fun i => i ≠ bookId)),
       .setSelected (some u),
       .setListBooks (lb.filter (fun b => b.id ≠ bookId)),
       .setLists (ls.map (fun l => if l.id = sel.id then u else l)),
       .notifySuccess "Book removed from reading list successfully!",
       .setRemoving none]) := by
  refine ⟨fun net => ?_, fun e => rfl, fun u => rfl⟩
  cases net <;> rfl

/-- C7: loadListBooks commits exactly the successfully resolved books when
the whole batch resolves (identifiers resolving to null are silently
filtered out, no notification is emitted), fails the whole batch with one
error notification and no partial commit when any resolution fails, and a
404 from getBook is a null resolution rather than an error. -/
theorem loadListBooks_filtering (s : PageState)
    (resolve : String → Except ApiErr (Option Book)) (bookIds : List String) :
    (∀ books, resolveAll resolve bookIds = .ok books →
      loadListBooks s resolve bookIds =
        ({ s with listBooks := books.filterMap id, isLoadingBooks := false }, [])) ∧
    (∀ e, resolveAll resolve bookIds = .error e →
      loadListBooks s resolve bookIds =
        ({ s with isLoadingBooks := false }, [.error e.text])) ∧
    (∀ body, getBook ⟨404, body⟩ = .ok none) :=
  ⟨fun books h => by simp [loadListBooks, h],
   fun e h => by simp [loadListBooks, h],
   fun body => rfl⟩

/-- A demo resolution oracle: b2 does not exist (404, null), the other
identifiers resolve to books carrying their identifier. -/
def demoResolve : String → Except ApiErr (Option Book) :=
  fun i => if i = "b2" then .ok none else .ok (some ⟨i, "t"⟩)

/-- Witness for C7: resolving the demo list where b2 is gone commits
exactly the b1 book and emits nothing. -/
theorem loadListBooks_filtering_witness :
    loadListBooks initialState demoResolve ["b1", "b2"] =
      ({ initialState with listBooks := [⟨"b1", "t"⟩], isLoadingBooks := false }, []) :=
  (loadListBooks_filtering initialState demoResolve ["b1", "b2"]).1
    [some ⟨"b1", "t"⟩, none] rfl

/-- C8 counterexample: a declined confirmation makes handleDeleteList
return with no notification at all, so not every execution path of a
mutating operation emits exactly one notification. -/
theorem deleteList_declined_no_notification :
    (handleDeleteList demoState "l1" false (.ok ())).2 = [] ∧
    (handleDeleteList demoState "l1" false (.ok ())).1 = demoState := by
  decide

/-- C8 amended: every execution of createList emits exactly one user-facing
message (the validation rejection being a blocking alert), and
removeBookFromList with a selection and deleteList with an accepted
confirmation emit exactly one notification; the declined-confirmation path
of deleteList and the no-selection path of removeBookFromList emit none. -/
theorem mutation_notification_discipline :
    (∀ s net, (handleCreateList s net).2.length = 1) ∧
    (∀ s bookId net sel, s.selectedList = some sel →
      (notices (handleRemoveBook s bookId net).2).length = 1) ∧
    (∀ s bookId net, s.selectedList = none →
      (notices (handleRemoveBook s bookId net).2).length = 0) ∧
    (∀ s listId net, (handleDeleteList s listId true net).2.length = 1) ∧
    (∀ s listId net, (handleDeleteList s listId false net).2.length = 0) := by
  refine ⟨fun s net => ?_, fun s bookId net sel h => ?_, fun s bookId net h => ?_,
    fun s listId net => ?_, fun s listId net => ?_⟩
  · unfold handleCreateList
    split_ifs
    · rfl
    · cases net <;> rfl
  · cases net <;> simp [handleRemoveBook, h, removeBookEffs, notices, noticeOf]
  · simp [handleRemoveBook, h, notices]
  · unfold handleDeleteList
    cases net with
    | ok u => simp
    | error e => rfl
  · rfl

/-- Witness for the amended C8: the demo removal emits one notification on
success and the no-selection removal emits none. -/
theorem mutation_notification_discipline_witness :
    (handleCreateList demoState (.ok demoSel)).2.length = 1 ∧
    (notices (handleRemoveBook demoState "b1" (.ok demoUpdated)).2).length = 1 ∧
    (notices (handleRemoveBook initialState "b1" (.ok demoUpdated)).2).length = 0 ∧
    (handleDeleteList demoState "l1" true (.error (.msg "x"))).2.length = 1 ∧
    (handleDeleteList demoState "l1" false (.ok ())).2.length = 0 :=
  ⟨mutation_notification_discipline.1 demoState (.ok demoSel),
   mutation_notification_discipline.2.1 demoState "b1" (.ok demoUpdated) demoSel rfl,
   mutation_notification_discipline.2.2.1 initialState "b1" (.ok demoUpdated) rfl,
   mutation_notification_discipline.2.2.2.1 demoState "l1" (.error (.msg "x")),
   mutation_notification_discipline.2.2.2.2 demoState "l1" (.ok ())⟩

/-- C10: with no list selected, handleRemoveBook returns before doing
anything: the state is returned untouched and the empty effect trace shows
that no request was issued and no notification emitted. -/
theorem removeBook_noop_without_selection (s : PageState) (bookId : String)
    (net : Except ApiErr RList) (h : s.selectedList = none) :
    handleRemoveBook s bookId net = (s, []) := by
  simp [handleRemoveBook, h]

/-- Witness for C10 at the initial state. -/
theorem removeBook_noop_without_selection_witness :
    handleRemoveBook initialState "b1" (.ok demoUpdated) = (initialState, []) :=
  removeBook_noop_without_selection initialState "b1" (.ok demoUpdated) rfl

/-- Every result of a successful batch resolution comes from resolving one
of the identifiers of the batch. -/
theorem resolveAll_mem (resolve : String → Except ApiErr (Option Book))
    (ids : List String) (books : List (Option Book))
    (h : resolveAll resolve ids = .ok books) :
    ∀ ob ∈ books, ∃ i ∈ ids, resolve i = .ok ob := by
  induction ids generalizing books with
  | nil =>
    simp only [resolveAll, Except.ok.injEq] at h
    subst h
    simp
  | cons i is ih =>
    intro ob hob
    unfold resolveAll at h
    cases hr : resolve i with
    | error e => simp [hr] at h
    | ok ob0 =>
      cases hrest : resolveAll resolve is with
      | error e => simp [hr, hrest] at h
      | ok obs =>
        simp only [hr, hrest, Except.ok.injEq] at h
        subst h
        rcases List.mem_cons.mp hob with rfl | hmem
        · exact ⟨i, List.mem_cons_self i is, hr⟩
        · obtain ⟨j, hj, hj2⟩ := ih obs hrest ob hmem
          exact ⟨j, List.mem_cons_of_mem i hj, hj2⟩

/-- The materialized view only shows books of the selected list. -/
def viewSubset (s : PageState) : Prop :=
  ∀ sel, s.selectedList = some sel → ∀ b ∈ s.listBooks, b.id ∈ sel.bookIds

/-- With the books modal closed, the view is empty and nothing is
selected. -/
def closedClean (s : PageState) : Prop :=
  s.isBooksModalOpen = false → s.listBooks = [] ∧ s.selectedList = none

/-- The page invariant used for claim C9. -/
def PageInv (s : PageState) : Prop := viewSubset s ∧ closedClean s

/-- The initial state satisfies the page invariant. -/
theorem pageInv_init : PageInv initialState := by
  constructor
  · intro sel hsel
    simp [initialState] at hsel
  · intro _
    exact ⟨rfl, rfl⟩

/-- Every page transition preserves the page invariant. -/
theorem pageInv_step {s t : PageState} (h : PageInv s) (hst : Step s t) : PageInv t := by
  obtain ⟨hview, hclean⟩ := h
  cases hst with
  | load net =>
    cases net <;> exact ⟨fun sel hs => hview sel hs, fun hc => hclean hc⟩
  | createList net =>
    unfold handleCreateList
    split_ifs
    · exact ⟨fun sel hs => hview sel hs, fun hc => hclean hc⟩
    · cases net <;> exact ⟨fun sel hs => hview sel hs, fun hc => hclean hc⟩
  | listClick list resolve hclosed hwf =>
    obtain ⟨hlb, _⟩ := hclean hclosed
    unfold handleListClick loadListBooks
    cases hres : resolveAll resolve list.bookIds with
    | ok books =>
      refine ⟨fun sel hsel b hb => ?_, fun hc => by cases hc⟩
      have hsel2 : list = sel := by
        simpa using hsel
      subst hsel2
      rw [List.mem_filterMap] at hb
      obtain ⟨ob, hob, hid⟩ := hb
      obtain ⟨i, hi, hri⟩ := resolveAll_mem resolve _ _ hres ob hob
      cases ob with
      | none => exact Option.noConfusion hid
      | some b0 =>
        have hb0 : b0 = b := by simpa using hid
        subst hb0
        rw [hwf i b0 hri]
        exact hi
    | error e =>
      refine ⟨fun sel hsel b hb => ?_, fun hc => by cases hc⟩
      have hb2 : b ∈ s.listBooks := hb
      rw [hlb] at hb2
      cases hb2
  | removeBookErr bookId e =>
    unfold handleRemoveBook
    cases hs : s.selectedList with
    | none => exact ⟨fun sel h2 => hview sel h2, fun hc => hclean hc⟩
    | some sel =>
      refine ⟨fun sel2 hsel2 b hb => ?_, fun hc => ?_⟩
      · exact hview sel2 hsel2 b hb
      · exact hclean hc
  | removeBookOk bookId u hu =>
    cases hs : s.selectedList with
    | none =>
      unfold handleRemoveBook
      rw [hs]
      exact ⟨fun sel h2 => hview sel h2, fun hc => hclean hc⟩
    | some sel =>
      have hub := hu sel hs
      unfold handleRemoveBook
      rw [hs]
      refine ⟨fun sel2 hsel2 b hb => ?_, fun hc => ?_⟩
      · have hsel3 : u = sel2 := Option.some.inj hsel2
        subst hsel3
        have hb3 : b ∈ s.listBooks.filter (fun b => b.id ≠ bookId) := hb
        rw [List.mem_filter] at hb3
        obtain ⟨hb1, hb2⟩ := hb3
        rw [hub, List.mem_filter]
        exact ⟨hview sel hs b hb1, hb2⟩
      · have hc2 : s.isBooksModalOpen = false := hc
        have := (hclean hc2).2
        rw [hs] at this
        cases this
  | deleteList listId confirmed net =>
    cases confirmed with
    | false => exact ⟨fun sel hs => hview sel hs, fun hc => hclean hc⟩
    | true =>
      unfold handleDeleteList
      cases net with
      | error e => exact ⟨fun sel hs => hview sel hs, fun hc => hclean hc⟩
      | ok v =>
        by_cases hmatch : s.selectedList.map RList.id = some listId
        · simp only [Bool.not_true, Bool.false_eq_true, if_false, if_pos hmatch]
          exact ⟨fun sel hs => (nomatch hs), fun _ => ⟨rfl, rfl⟩⟩
        · simp only [Bool.not_true, Bool.false_eq_true, if_false, if_neg hmatch]
          exact ⟨fun sel hs => hview sel hs, fun hc => hclean hc⟩
  | closeBooks =>
    exact ⟨fun sel hs => (nomatch hs), fun _ => ⟨rfl, rfl⟩⟩
  | openCreate => exact ⟨fun sel hs => hview sel hs, fun hc => hclean hc⟩
  | closeCreate => exact ⟨fun sel hs => hview sel hs, fun hc => hclean hc⟩
  | editName v => exact ⟨fun sel hs => hview sel hs, fun hc => hclean hc⟩
  | editDescription v => exact ⟨fun sel hs => hview sel hs, fun hc => hclean hc⟩

/-- The page invariant holds in every reachable state. -/
theorem pageInv_reachable {s : PageState} (h : Reachable s) : PageInv s := by
  induction h with
  | init => exact pageInv_init
  | step _ hstep ih => exact pageInv_step ih hstep

/-- C9 amended: under serialized execution — every book load completes
before the next user action, the Step relation — every reachable state
with a selected list has its materialized view contain only books whose
identifier belongs to that list's stored identifier set.  (With
overlapping loads the implementation does not guarantee this: see the C9
counterexample, where a stale in-flight load commits a previous list's
books under a newer selection.) -/
theorem selectedView_subset (s : PageState) (h : Reachable s) (sel : RList)
    (hsel : s.selectedList = some sel) : ∀ b ∈ s.listBooks, b.id ∈ sel.bookIds :=
  (pageInv_reachable h).1 sel hsel

/-- A single-book list used by the C9 witness. -/
def demoList : RList := ⟨"l1", "1", "N", "D", ["b1"]⟩

/-- A resolution oracle that returns, for each identifier, the book
carrying that identifier. -/
def demoOracle : String → Except ApiErr (Option Book) :=
  fun i => .ok (some ⟨i, "t"⟩)

/-- The demo oracle is well-formed. -/
theorem demoOracle_wf : resolveWF demoOracle := by
  intro id b h
  simp only [demoOracle, Except.ok.injEq, Option.some.injEq] at h
  rw [← h]

/-- Witness for C9: after selecting the demo list from the initial state,
the materialized book's identifier is in the list's identifier set. -/
theorem selectedView_subset_witness : (Book.mk "b1" "t").id ∈ demoList.bookIds :=
  selectedView_subset (handleListClick initialState demoList demoOracle).1
    (Reachable.step Reachable.init
      (Step.listClick initialState demoList demoOracle rfl demoOracle_wf))
    demoList rfl (Book.mk "b1" "t") (by decide)

/-! ### The unguarded selection race

The implementation awaits loadListBooks inside handleListClick with no
generation counter or cancellation: a book load started for one selection
stays in flight across a modal close and a newer selection, and when its
Promise.all settles its setListBooks lands on whatever state is current.
The model below extends the page state with the multiset of in-flight
load completions.  Every constructor of AsyncStep is a behavior of the
program: clicking a list card (backdrop closed) starts a load, closing
the modal leaves in-flight loads pending, and any pending load may settle
at any later point, in any order. -/

/-- The page state together with the in-flight book-load completions
(each recorded as the outcome its Promise.all will deliver). -/
structure AsyncPage where
  page : PageState
  pendingLoads : List (Except ApiErr (List (Option Book)))

/-- Clicking a list card: select the list, open the modal, mark loading,
and start the book load, which stays pending until it settles. -/
def startListClick (a : AsyncPage) (list : RList)
    (resolve : String → Except ApiErr (Option Book)) : AsyncPage :=
  AsyncPage.mk
    { a.page with selectedList := some list, isBooksModalOpen := true, isLoadingBooks := true }
    (a.pendingLoads ++ [resolveAll resolve list.bookIds])

/-- A pending load settles: on success its setListBooks commits the
filtered books over whatever state is current (the source setListBooks
takes a value, not an updater, and checks nothing); on failure one error
is notified.  Either way the loading flag clears and the load is spent. -/
def completeLoad (a : AsyncPage) (k : Nat) : AsyncPage × List Notice :=
  match a.pendingLoads.get? k with
  | none => (a, [])
  | some (.ok books) =>
    (AsyncPage.mk
      { a.page with listBooks := books.filterMap id, isLoadingBooks := false }
      (a.pendingLoads.eraseIdx k), [])
  | some (.error e) =>
    (AsyncPage.mk
      { a.page with isLoadingBooks := false }
      (a.pendingLoads.eraseIdx k), [.error e.text])

/-- Transitions of the page with in-flight loads: a sub-relation of the
program's behavior sufficient to exhibit the selection race (the other
handlers are omitted; every constructor here is something the program
does). -/
inductive AsyncStep : AsyncPage → AsyncPage → Prop where
  | startLoad (a : AsyncPage) (list : RList)
      (resolve : String → Except ApiErr (Option Book)) :
      a.page.isBooksModalOpen = false → resolveWF resolve →
      AsyncStep a (startListClick a list resolve)
  | finishLoad (a : AsyncPage) (k : Nat) : AsyncStep a (completeLoad a k).1
  | closeBooks (a : AsyncPage) : AsyncStep a ⟨closeBooksModal a.page, a.pendingLoads⟩

/-- Async states reachable from the initial page with no pending loads. -/
inductive AsyncReachable : AsyncPage → Prop where
  | init : AsyncReachable ⟨initialState, []⟩
  | step {a b : AsyncPage} : AsyncReachable a → AsyncStep a b → AsyncReachable b

/-- The first list selected in the race scenario. -/
def listA : RList := ⟨"la", "1", "A", "", ["b1"]⟩

/-- The second list selected in the race scenario. -/
def listB : RList := ⟨"lb", "1", "B", "", ["b2"]⟩

/-- Race scenario, step 1: select list A; its load goes in flight. -/
def race1 : AsyncPage := startListClick ⟨initialState, []⟩ listA demoOracle

/-- Step 2: close the books modal while the load for A is still pending. -/
def race2 : AsyncPage := ⟨closeBooksModal race1.page, race1.pendingLoads⟩

/-- Step 3: select list B; its load joins the pending one for A. -/
def race3 : AsyncPage := startListClick race2 listB demoOracle

/-- Step 4: the load for B settles first and commits the books of B. -/
def race4 : AsyncPage := (completeLoad race3 1).1

/-- Step 5: the stale load for A settles last and commits the books of A
while list B is still selected. -/
def raceState : AsyncPage := (completeLoad race4 0).1

/-- The race scenario is reachable: each step is an AsyncStep. -/
theorem raceState_reachable : AsyncReachable raceState :=
  .step (.step (.step (.step
    (.step .init (AsyncStep.startLoad ⟨initialState, []⟩ listA demoOracle rfl demoOracle_wf))
    (AsyncStep.closeBooks race1))
    (AsyncStep.startLoad race2 listB demoOracle rfl demoOracle_wf))
    (AsyncStep.finishLoad race3 1))
    (AsyncStep.finishLoad race4 0)

/-- C9 counterexample: the program reaches a quiescent state (no load in
flight) in which list B is selected but the materialized view holds the
book of list A, whose identifier is not among B's bookIds — the subset
invariant does not hold in every reachable state once overlapping loads
are taken into account. -/
theorem stale_load_breaks_subset :
    AsyncReachable raceState ∧
    raceState.page.selectedList = some listB ∧
    (Book.mk "b1" "t") ∈ raceState.page.listBooks ∧
    (Book.mk "b1" "t").id ∉ listB.bookIds ∧
    raceState.pendingLoads = [] :=
  ⟨raceState_reachable, rfl, by decide, by decide, rfl⟩

/-- The event sequence refuting C6: a second confirmation request arrives
while the first is still pending, then the accept action is invoked. -/
def c6events : List CEvent := [.confirmReq 0, .confirmReq 1, .accept]

/-- C6 counterexample: request 0 was made but receives no resolution at
all (its promise is abandoned when request 1 replaces it), so it is not
the case that exactly one resolution occurs per confirmation request. -/
theorem confirm_superseded_unresolved :
    0 ∈ requestIds c6events ∧
    resolutionsFor (confirmRun c6events) 0 = [] ∧
    resolutionsFor (confirmRun c6events) 1 = [true] := by
  decide

/-- In a resolution record whose request identifiers are distinct, any
request receives at most one resolution. -/
theorem nodup_firsts_filter_len (res : List (Nat × Bool)) (i : Nat)
    (h : (res.map Prod.fst).Nodup) :
    (res.filter (fun p => p.1 = i)).length ≤ 1 := by
  induction res with
  | nil => simp
  | cons p rest ih =>
    rw [List.map_cons, List.nodup_cons] at h
    obtain ⟨hnot, hnd⟩ := h
    by_cases hp : p.1 = i
    · rw [List.filter_cons_of_pos (by simp [hp])]
      have hnil : rest.filter (fun p => p.1 = i) = [] := by
        rw [List.filter_eq_nil_iff]
        intro q hq
        simp only [decide_eq_true_eq]
        intro hqi
        exact hnot (by rw [hp, ← hqi]; exact List.mem_map_of_mem Prod.fst hq)
      simp [hnil]
    · rw [List.filter_cons_of_neg (by simp [hp])]
      exact ih hnd

/-- The invariant of the confirmation provider: the resolved request
identifiers are distinct, every resolved or pending identifier has been
requested, and the pending identifier is not yet resolved. -/
def CInv (seen : List Nat) (st : CState) : Prop :=
  (st.resolutions.map Prod.fst).Nodup ∧
  (∀ j ∈ st.resolutions.map Prod.fst, j ∈ seen) ∧
  (∀ i, st.pending = some i → i ∈ seen ∧ i ∉ st.resolutions.map Prod.fst)

/-- Folding events with fresh, distinct request identifiers preserves the
confirmation invariant. -/
theorem cinv_fold (evs : List CEvent) : ∀ (seen : List Nat) (st : CState),
    CInv seen st → (requestIds evs).Nodup →
    (∀ j ∈ requestIds evs, j ∉ seen) →
    CInv (seen ++ requestIds evs) (evs.foldl confirmStep st) := by
  induction evs with
  | nil =>
    intro seen st hinv _ _
    simpa [requestIds] using hinv
  | cons e evs ih =>
    intro seen st hinv hnd hdisj
    cases e with
    | confirmReq j =>
      rw [show requestIds (.confirmReq j :: evs) = j :: requestIds evs from rfl] at hnd hdisj ⊢
      obtain ⟨hjnot, hnd'⟩ := List.nodup_cons.mp hnd
      have hjseen : j ∉ seen := hdisj j (List.mem_cons_self j _)
      obtain ⟨h1, h2, h3⟩ := hinv
      have hinv' : CInv (seen ++ [j]) { st with pending := some j } := by
        refine ⟨h1, fun k hk => List.mem_append_left _ (h2 k hk), fun i hi => ?_⟩
        have hij : j = i := by simpa using hi
        subst hij
        exact ⟨List.mem_append_right _ (List.mem_singleton.mpr rfl),
          fun hm => hjseen (h2 j hm)⟩
      have hdisj' : ∀ k ∈ requestIds evs, k ∉ seen ++ [j] := by
        intro k hk
        rw [List.mem_append, List.mem_singleton]
        rintro (hks | rfl)
        · exact hdisj k (List.mem_cons_of_mem j hk) hks
        · exact hjnot hk
      have hres := ih (seen ++ [j]) _ hinv' hnd' hdisj'
      rw [List.append_cons]
      exact hres
    | accept =>
      rw [show requestIds (.accept :: evs) = requestIds evs from rfl] at hnd hdisj ⊢
      rw [List.foldl_cons]
      cases hp : st.pending with
      | none =>
        rw [show confirmStep st .accept = st from by simp [confirmStep, hp]]
        exact ih seen st hinv hnd hdisj
      | some i =>
        obtain ⟨h1, h2, h3⟩ := hinv
        obtain ⟨hiseen, hinotres⟩ := h3 i hp
        rw [show confirmStep st .accept = ⟨none, st.resolutions ++ [(i, true)]⟩ from
          by simp [confirmStep, hp]]
        refine ih seen _ ⟨?_, ?_, ?_⟩ hnd hdisj
        · rw [List.map_append]
          rw [List.nodup_append]
          exact ⟨h1, List.nodup_singleton i, by simpa using hinotres⟩
        · intro k hk
          rw [List.map_append, List.mem_append] at hk
          rcases hk with hk | hk
          · exact h2 k hk
          · have : k = i := by simpa using hk
            subst this
            exact hiseen
        · intro k hk
          cases hk
    | cancel =>
      rw [show requestIds (.cancel :: evs) = requestIds evs from rfl] at hnd hdisj ⊢
      rw [List.foldl_cons]
      cases hp : st.pending with
      | none =>
        rw [show confirmStep st .cancel = st from by simp [confirmStep, hp]]
        exact ih seen st hinv hnd hdisj
      | some i =>
        obtain ⟨h1, h2, h3⟩ := hinv
        obtain ⟨hiseen, hinotres⟩ := h3 i hp
        rw [show confirmStep st .cancel = ⟨none, st.resolutions ++ [(i, false)]⟩ from
          by simp [confirmStep, hp]]
        refine ih seen _ ⟨?_, ?_, ?_⟩ hnd hdisj
        · rw [List.map_append]
          rw [List.nodup_append]
          exact ⟨h1, List.nodup_singleton i, by simpa using hinotres⟩
        · intro k hk
          rw [List.map_append, List.mem_append] at hk
          rcases hk with hk | hk
          · exact h2 k hk
          · have : k = i := by simpa using hk
            subst this
            exact hiseen
        · intro k hk
          cases hk

/-- C6 amended: the pending confirmation request resolves to true exactly
when the accept action is invoked and to false exactly when cancel is
invoked, and every request resolves at most once — but a request
superseded by a second confirm call before any user action is never
resolved (at most, not exactly, one resolution per request). -/
theorem confirm_resolution :
    (∀ evs i, (confirmRun evs).pending = some i →
      confirmRun (evs ++ [.accept]) = ⟨none, (confirmRun evs).resolutions ++ [(i, true)]⟩ ∧
      confirmRun (evs ++ [.cancel]) = ⟨none, (confirmRun evs).resolutions ++ [(i, false)]⟩) ∧
    (∀ evs, (requestIds evs).Nodup → ∀ i,
      (resolutionsFor (confirmRun evs) i).length ≤ 1) := by
  constructor
  · intro evs i hp
    have happ : ∀ e, confirmRun (evs ++ [e]) = confirmStep (confirmRun evs) e := by
      intro e
      simp [confirmRun, List.foldl_append]
    rw [happ, happ]
    exact ⟨by simp [confirmStep, hp], by simp [confirmStep, hp]⟩
  · intro evs hnd i
    have hinv := cinv_fold evs [] ⟨none, []⟩
      ⟨List.nodup_nil, by simp, fun i h => by cases h⟩ hnd (by simp)
    rw [resolutionsFor, List.length_map]
    exact nodup_firsts_filter_len _ i hinv.1

/-- Witness for the amended C6: a single request accepted resolves to
true, and receives at most one resolution. -/
theorem confirm_resolution_witness :
    confirmRun ([.confirmReq 5] ++ [.accept]) =
      ⟨none, (confirmRun [.confirmReq 5]).resolutions ++ [(5, true)]⟩ ∧
    (resolutionsFor (confirmRun [.confirmReq 5, .accept]) 5).length ≤ 1 :=
  ⟨(confirm_resolution.1 [.confirmReq 5] 5 rfl).1,
   confirm_resolution.2 [.confirmReq 5, .accept] (by decide) 5⟩

end LibRec
